import Mathlib

/-!
# Verification of the Message Store Adapter & Live-Sync subsystem

Shallow embedding of `src/backend/src/services/messages.rs`,
`src/backend/src/services/watcher.rs` and `src/backend/src/api/chats.rs`
(the TimestampCodec, LegacyTextDecoder, AssociationResolver,
ConversationQueryEngine and ChangeWatcher components), together with
theorems settling the frozen claims about them.

Conventions of the embedding:
* Rust byte slices (`&[u8]`) are `List Nat` of byte values.
* Rust strings are `List Char` in the query layer; the byte-level decoder
  works with lists of Unicode code points (`List Nat`).
* Rust `i64` is `Int`; Rust `/` on `i64` (truncated division) is `Int.tdiv`.
* Fallible/panicking operations are embedded in a *checked* style: every
  index and slice access goes through `Option`-returning accessors, and a
  would-be panic surfaces as `Except.error ()`.  Totality ("no panics") is
  then the theorem that the checked function never returns `Except.error`.
* SQL query results are inputs of the model functions: a query over a table
  is a `List` of row structures (given in the query's ORDER BY order), and
  keyed lookup maps built by SQL are functions `Int → ...`.
-/

/-! ## Byte and code-point utilities -/

/-- The set of code points with the Unicode `White_Space` property, as used
by Rust's `char::is_whitespace` (and hence by `str::trim`). -/
def rustWhitespace (c : Nat) : Bool :=
  c = 0x09 ∨ c = 0x0A ∨ c = 0x0B ∨ c = 0x0C ∨ c = 0x0D ∨ c = 0x20 ∨
  c = 0x85 ∨ c = 0xA0 ∨ c = 0x1680 ∨ (0x2000 ≤ c ∧ c ≤ 0x200A) ∨
  c = 0x2028 ∨ c = 0x2029 ∨ c = 0x202F ∨ c = 0x205F ∨ c = 0x3000

/-- `str::trim`: remove leading and trailing whitespace from a list of
code points. -/
def trimCodepoints (l : List Nat) : List Nat :=
  ((l.dropWhile rustWhitespace).reverse.dropWhile rustWhitespace).reverse

/-- A UTF-8 continuation byte. -/
def utf8Cont (b : Nat) : Bool := 0x80 ≤ b ∧ b ≤ 0xBF

/-- `std::str::from_utf8`: decode a byte list as UTF-8 into a list of code
points, `none` on any ill-formed input (overlong forms, surrogates and
out-of-range values rejected, exactly as Rust's validator does). -/
def utf8Decode : List Nat → Option (List Nat)
  | [] => some []
  | b :: rest =>
    if b < 0x80 then
      (utf8Decode rest).map (b :: ·)
    else if 0xC2 ≤ b ∧ b ≤ 0xDF then
      match rest with
      | b1 :: rest' =>
        if utf8Cont b1 then
          (utf8Decode rest').map (((b - 0xC0) * 0x40 + (b1 - 0x80)) :: ·)
        else none
      | [] => none
    else if (b = 0xE0 ∨ (0xE1 ≤ b ∧ b ≤ 0xEC) ∨ b = 0xED ∨ (0xEE ≤ b ∧ b ≤ 0xEF)) then
      match rest with
      | b1 :: b2 :: rest' =>
        if (if b = 0xE0 then 0xA0 ≤ b1 ∧ b1 ≤ 0xBF
            else if b = 0xED then 0x80 ≤ b1 ∧ b1 ≤ 0x9F
            else utf8Cont b1 = true) ∧ utf8Cont b2 then
          (utf8Decode rest').map
            (((b - 0xE0) * 0x1000 + (b1 - 0x80) * 0x40 + (b2 - 0x80)) :: ·)
        else none
      | _ => none
    else if (b = 0xF0 ∨ (0xF1 ≤ b ∧ b ≤ 0xF3) ∨ b = 0xF4) then
      match rest with
      | b1 :: b2 :: b3 :: rest' =>
        if (if b = 0xF0 then 0x90 ≤ b1 ∧ b1 ≤ 0xBF
            else if b = 0xF4 then 0x80 ≤ b1 ∧ b1 ≤ 0x8F
            else utf8Cont b1 = true) ∧ utf8Cont b2 ∧ utf8Cont b3 then
          (utf8Decode rest').map
            (((b - 0xF0) * 0x40000 + (b1 - 0x80) * 0x1000 +
              (b2 - 0x80) * 0x40 + (b3 - 0x80)) :: ·)
        else none
      | _ => none
    else none

/-- Whether a byte list is valid UTF-8 (`from_utf8(..).is_ok()`). -/
def utf8Valid (l : List Nat) : Bool := (utf8Decode l).isSome

/-- Checked sub-slice `&data[a..b]`: `none` exactly when Rust would panic,
i.e. unless `a ≤ b ≤ data.len()`. -/
def slice? (data : List Nat) (a b : Nat) : Option (List Nat) :=
  if a ≤ b ∧ b ≤ data.length then some ((data.drop a).take (b - a)) else none

/-- UTF-8 byte length of one code point (used for `str::len` on decoded
text). -/
def utf8CharLen (c : Nat) : Nat :=
  if c < 0x80 then 1 else if c < 0x800 then 2 else if c < 0x10000 then 3 else 4

/-- `str::len` (byte length) of a list of code points. -/
def utf8Len (l : List Nat) : Nat := (l.map utf8CharLen).sum

/-- Substring containment test on lists (`str::contains` for ASCII
needles): does `needle` occur contiguously inside `hay`? -/
def containsSeq {α : Type} [DecidableEq α] (needle : List α) : List α → Bool
  | [] => needle.isPrefixOf []
  | a :: t => needle.isPrefixOf (a :: t) || containsSeq needle t

theorem containsSeq_iff {α : Type} [DecidableEq α] (needle hay : List α) :
    containsSeq needle hay = true ↔ needle <:+: hay := by
  induction hay with
  | nil =>
    simp [containsSeq, List.isPrefixOf_iff_prefix]
  | cons a t ih =>
    simp only [containsSeq, Bool.or_eq_true, List.isPrefixOf_iff_prefix, ih]
    constructor
    · rintro (h | h)
      · exact h.isInfix
      · exact List.infix_cons h
    · intro h
      rcases List.infix_cons_iff.mp h with h | h
      · exact Or.inl h
      · exact Or.inr h

/-- `haystack.windows(needle.len()).position(|w| w == needle)`: index of the
first occurrence of `needle` in `haystack` (`find_subsequence` in
`messages.rs`). -/
def find_subsequence {α : Type} [DecidableEq α] (haystack needle : List α) : Option Nat :=
  if needle.length > haystack.length then none
  else if needle.isPrefixOf haystack then some 0
  else
    match haystack with
    | [] => none
    | _ :: t => (find_subsequence t needle).map (· + 1)

/-! ## TimestampCodec (`messages.rs`, `convert_apple_time`,
`convert_apple_time_seconds`, and the inline millisecond conversion of
`fetch_last_messages_map`) -/

/-- Seconds between 1970-01-01 and 2001-01-01. -/
def APPLE_EPOCH : Int := 978307200

/-- `convert_apple_time`: Apple nanoseconds since 2001-01-01 to Unix
milliseconds. -/
def convert_apple_time (nanoseconds : Int) : Int :=
  (APPLE_EPOCH + Int.tdiv nanoseconds 1000000000) * 1000

/-- `convert_apple_time_seconds`: Apple nanoseconds to Unix seconds. -/
def convert_apple_time_seconds (nanoseconds : Int) : Int :=
  APPLE_EPOCH + Int.tdiv nanoseconds 1000000000

/-- The inline conversion `data.date / 1_000_000 + 978307200000` used for a
chat's last-message time in `fetch_last_messages_map` (and in the two
inlined copies in `fetch_chats_by_ids` and `fetch_search_chats`). -/
def last_message_time_ms (date : Int) : Int :=
  Int.tdiv date 1000000 + 978307200000

/-! ## AssociationResolver (`messages.rs`, `normalize_reaction_guid`) -/

/-- The suffix of `l` that follows the *last* `'/'` in `l`
(`guid.rfind('/')` followed by `guid[pos + 1..]`), or `none` when `l`
contains no `'/'`. -/
def afterLastSlash : List Char → Option (List Char)
  | [] => none
  | a :: rest =>
    match afterLastSlash rest with
    | some s => some s
    | none => if a = '/' then some rest else none

/-- `normalize_reaction_guid`: strip the wrapper of an association
identifier down to the bare GUID. -/
def normalize_reaction_guid (guid : List Char) : List Char :=
  match afterLastSlash guid with
  | some s => s
  | none =>
    if ['b', 'p', ':'].isPrefixOf guid then guid.drop 3 else guid

theorem afterLastSlash_of_no_slash {g : List Char} (h : '/' ∉ g) :
    afterLastSlash g = none := by
  induction g with
  | nil => rfl
  | cons a t ih =>
    simp only [List.mem_cons, not_or] at h
    simp [afterLastSlash, ih h.2, Ne.symm h.1]

theorem afterLastSlash_append (pre g : List Char) (h : '/' ∉ g) :
    afterLastSlash (pre ++ '/' :: g) = some g := by
  induction pre with
  | nil => simp [afterLastSlash, afterLastSlash_of_no_slash h]
  | cons a t ih => simp [afterLastSlash, ih]

/-! ## LegacyTextDecoder (`messages.rs`, `extract_text_from_attributed_body`)

The decoder is embedded in a *checked* style: every byte index and every
sub-slice operation goes through `List.get?` / `slice?`, and any access that
Rust would panic on surfaces as `Except.error ()`.  The loops are embedded
with an explicit iteration budget (`fuel`); a run that would need more
iterations than the budget also surfaces as `Except.error ()`.  The totality
theorem below shows neither kind of error can occur, for any input. -/

/-- The bytes of the class-name tag `b"NSString"`. -/
def nsstring_marker : List Nat := [78, 83, 83, 116, 114, 105, 110, 103]

/-- ASCII code points of a string literal. -/
def strCps (s : String) : List Nat := s.toList.map Char.toNat

/-- The framework/class-name keywords rejected by the fallback tier. -/
def plistKeywords : List (List Nat) :=
  [strCps "NSString", strCps "NSDictionary", strCps "NSAttributedString",
   strCps "NSNumber", strCps "NSValue", strCps "NSObject", strCps "NSArray",
   strCps "streamtyped", strCps "__kIM", strCps "MessagePart",
   strCps "AttributeName"]

/-- Model of Rust `char::is_alphabetic` restricted to ASCII letters.  No
claim depends on the tabulated non-ASCII part of the Unicode `Alphabetic`
property, which is why the embedding does not reproduce that table. -/
def isAlphabetic (c : Nat) : Bool := (0x41 ≤ c ∧ c ≤ 0x5A) ∨ (0x61 ≤ c ∧ c ≤ 0x7A)

/-- The variable-width length header read after the `0x2B` marker:
`ok (some (text_start, text_len))` on a recognised header, `ok none` for the
`continue` branch ("unknown encoding, skip"), `error` on an out-of-bounds
byte access. -/
def lengthHeader (data : List Nat) (i lengthByte : Nat) : Except Unit (Option (Nat × Nat)) :=
  if lengthByte < 0x80 then
    .ok (some (i + 2, lengthByte))
  else if lengthByte = 0x81 ∧ i + 4 < data.length then
    match data.get? (i + 2), data.get? (i + 3) with
    | some b2, some b3 => .ok (some (i + 4, b2 + b3 * 0x100))
    | _, _ => .error ()
  else if lengthByte = 0x82 ∧ i + 5 < data.length then
    match data.get? (i + 2), data.get? (i + 3), data.get? (i + 4) with
    | some b2, some b3, some b4 => .ok (some (i + 5, b2 + b3 * 0x100 + b4 * 0x10000))
    | _, _, _ => .error ()
  else .ok none

/-- The structured tier's scan `for i in search_start..search_end` looking
for the `0x2B` length-prefix marker after the class-name tag. -/
def strat1Scan (data : List Nat) (stop : Nat) : Nat → Nat → Except Unit (Option (List Nat))
  | fuel, i =>
    if i < stop then
      match fuel with
      | 0 => .error ()
      | fuel' + 1 =>
        match data.get? i with
        | none => .error ()
        | some b =>
          if b = 0x2B ∧ i + 2 < data.length then
            match data.get? (i + 1) with
            | none => .error ()
            | some lengthByte =>
              match lengthHeader data i lengthByte with
              | .error _ => .error ()
              | .ok none => strat1Scan data stop fuel' (i + 1)
              | .ok (some (textStart, textLen)) =>
                if textStart + textLen ≤ data.length then
                  match slice? data textStart (textStart + textLen) with
                  | none => .error ()
                  | some seg =>
                    match utf8Decode seg with
                    | some cps =>
                      if (trimCodepoints cps).isEmpty then
                        strat1Scan data stop fuel' (i + 1)
                      else .ok (some (trimCodepoints cps))
                    | none => strat1Scan data stop fuel' (i + 1)
                else strat1Scan data stop fuel' (i + 1)
          else strat1Scan data stop fuel' (i + 1)
    else .ok none

/-- The fallback tier's inner scan `for end in i + 1..=stop`, extending the
current valid-UTF-8 run one byte at a time and stopping at the first
invalid extension; returns the final `best_end`. -/
def scanEnd (data : List Nat) (i stop : Nat) : Nat → Nat → Nat → Except Unit Nat
  | fuel, e, best =>
    if e > stop then .ok best
    else
      match fuel with
      | 0 => .error ()
      | fuel' + 1 =>
        match slice? data i e with
        | none => .error ()
        | some seg =>
          if utf8Valid seg then scanEnd data i stop fuel' (e + 1) e
          else .ok best

/-- The fallback tier's per-run update of `best_text`: keyword rejection,
minimum alphabetic count, mostly-printable requirement, and the
`2×alphabetic + byte-length` scoring. -/
def fallbackUpdate (bestText cps : List Nat) : List Nat :=
  let trimmed := trimCodepoints cps
  let hasKeyword := plistKeywords.any (fun kw => containsSeq kw trimmed)
  let alphaCount := (trimmed.filter isAlphabetic).length
  let mostlyPrintable := trimmed.all (fun c => 0x20 ≤ c ∨ c = 0x0A ∨ c = 0x09)
  if ¬hasKeyword = true ∧ alphaCount > 3 ∧ mostlyPrintable = true then
    if alphaCount * 2 + utf8Len trimmed >
        (bestText.filter isAlphabetic).length * 2 + utf8Len bestText then
      trimmed
    else bestText
  else bestText

/-- The fallback tier's outer `while i < data.len()` loop, carrying the
current `best_text` (as trimmed code points). -/
def fallbackLoop (data : List Nat) : Nat → Nat → List Nat → Except Unit (List Nat)
  | fuel, i, bestText =>
    if i < data.length then
      match fuel with
      | 0 => .error ()
      | fuel' + 1 =>
        match scanEnd data i (min data.length (i + 2000)) 2000 (i + 1) i with
        | .error _ => .error ()
        | .ok bestEnd =>
          if bestEnd > i + 5 then
            match slice? data i bestEnd with
            | none => .error ()
            | some seg =>
              match utf8Decode seg with
              | some cps => fallbackLoop data fuel' bestEnd (fallbackUpdate bestText cps)
              | none => fallbackLoop data fuel' bestEnd bestText
          else fallbackLoop data fuel' (i + 1) bestText
    else .ok bestText

/-- The whole fallback tier ("Strategy 2"): run the scan and return the best
run if non-empty. -/
def strategy2 (data : List Nat) : Except Unit (Option (List Nat)) :=
  match fallbackLoop data (data.length + 1) 0 [] with
  | .error _ => .error ()
  | .ok best => .ok (if best.isEmpty then none else some best)

/-- `extract_text_from_attributed_body`, checked: `ok (some t)` is
`Some(text)` (as code points), `ok none` is `None`, and `error` stands for
a panic (shown unreachable below). -/
def extract_text_from_attributed_body (data : List Nat) : Except Unit (Option (List Nat)) :=
  match find_subsequence data nsstring_marker with
  | some nsstringPos =>
    match strat1Scan data (min (nsstringPos + nsstring_marker.length + 20) data.length) 20
        (nsstringPos + nsstring_marker.length) with
    | .error _ => .error ()
    | .ok (some t) => .ok (some t)
    | .ok none => strategy2 data
  | none => strategy2 data

/-! ### Totality of the checked decoder -/

theorem slice?_pos {data : List Nat} {a b : Nat} (h1 : a ≤ b) (h2 : b ≤ data.length) :
    slice? data a b = some ((data.drop a).take (b - a)) := by
  simp [slice?, h1, h2]

theorem lengthHeader_ok (data : List Nat) (i lb : Nat) :
    ∃ r, lengthHeader data i lb = Except.ok r := by
  unfold lengthHeader
  split_ifs with h1 h2 h3
  · exact ⟨_, rfl⟩
  · rw [List.get?_eq_get (show i + 2 < data.length by omega),
      List.get?_eq_get (show i + 3 < data.length by omega)]
    exact ⟨_, rfl⟩
  · rw [List.get?_eq_get (show i + 2 < data.length by omega),
      List.get?_eq_get (show i + 3 < data.length by omega),
      List.get?_eq_get (show i + 4 < data.length by omega)]
    exact ⟨_, rfl⟩
  · exact ⟨_, rfl⟩

theorem strat1Scan_ok (data : List Nat) (stop : Nat) (hstop : stop ≤ data.length) :
    ∀ fuel i, stop - i ≤ fuel → ∃ r, strat1Scan data stop fuel i = Except.ok r := by
  intro fuel
  induction fuel with
  | zero =>
    intro i hi
    rw [strat1Scan, if_neg (by omega)]
    exact ⟨_, rfl⟩
  | succ f ih =>
    intro i hi
    rw [strat1Scan]
    by_cases hlt : i < stop
    · rw [if_pos hlt]
      obtain ⟨b, hgb⟩ : ∃ b, data.get? i = some b :=
        ⟨_, List.get?_eq_get (show i < data.length by omega)⟩
      simp only [hgb]
      by_cases hb : b = 0x2B ∧ i + 2 < data.length
      · rw [if_pos hb]
        obtain ⟨lb, hglb⟩ : ∃ lb, data.get? (i + 1) = some lb :=
          ⟨_, List.get?_eq_get (show i + 1 < data.length by omega)⟩
        simp only [hglb]
        obtain ⟨r, hr⟩ := lengthHeader_ok data i lb
        cases r with
        | none => simp only [hr]; exact ih (i + 1) (by omega)
        | some p =>
          obtain ⟨ts, tl⟩ := p
          simp only [hr]
          by_cases htl : ts + tl ≤ data.length
          · rw [if_pos htl]
            simp only [slice?_pos (show ts ≤ ts + tl by omega) htl]
            cases hdec : utf8Decode ((data.drop ts).take (ts + tl - ts)) with
            | some cps =>
              simp only [hdec]
              by_cases htr : (trimCodepoints cps).isEmpty = true
              · rw [if_pos htr]; exact ih (i + 1) (by omega)
              · rw [if_neg htr]; exact ⟨_, rfl⟩
            | none => simp only [hdec]; exact ih (i + 1) (by omega)
          · rw [if_neg htl]; exact ih (i + 1) (by omega)
      · rw [if_neg hb]; exact ih (i + 1) (by omega)
    · rw [if_neg hlt]; exact ⟨_, rfl⟩

theorem scanEnd_ok (data : List Nat) (i stop : Nat) (hstop : stop ≤ data.length) :
    ∀ fuel e best, i ≤ e → best ≤ stop → stop + 1 - e ≤ fuel →
      ∃ r, scanEnd data i stop fuel e best = Except.ok r ∧ r ≤ stop := by
  intro fuel
  induction fuel with
  | zero =>
    intro e best he hb hf
    rw [scanEnd, if_pos (by omega)]
    exact ⟨best, rfl, hb⟩
  | succ f ih =>
    intro e best he hb hf
    rw [scanEnd]
    by_cases hgt : e > stop
    · rw [if_pos hgt]; exact ⟨best, rfl, hb⟩
    · rw [if_neg hgt]
      simp only [slice?_pos he (show e ≤ data.length by omega)]
      by_cases hv : utf8Valid ((data.drop i).take (e - i)) = true
      · rw [if_pos hv]; exact ih (e + 1) e (by omega) (by omega) (by omega)
      · rw [if_neg hv]; exact ⟨best, rfl, hb⟩

theorem fallbackLoop_ok (data : List Nat) :
    ∀ fuel i best, data.length - i < fuel →
      ∃ r, fallbackLoop data fuel i best = Except.ok r := by
  intro fuel
  induction fuel with
  | zero => intro i best h; exact absurd h (Nat.not_lt_zero _)
  | succ f ih =>
    intro i best h
    rw [fallbackLoop]
    by_cases hi : i < data.length
    · rw [if_pos hi]
      obtain ⟨be, hbe, hbele⟩ :=
        scanEnd_ok data i (min data.length (i + 2000)) (Nat.min_le_left _ _) 2000 (i + 1) i
          (by omega) (by omega) (by omega)
      simp only [hbe]
      by_cases hgt : be > i + 5
      · rw [if_pos hgt]
        have hbelen : be ≤ data.length := le_trans hbele (Nat.min_le_left _ _)
        simp only [slice?_pos (show i ≤ be by omega) hbelen]
        cases hdec : utf8Decode ((data.drop i).take (be - i)) with
        | some cps => simp only [hdec]; exact ih be _ (by omega)
        | none => simp only [hdec]; exact ih be _ (by omega)
      · rw [if_neg hgt]; exact ih (i + 1) _ (by omega)
    · rw [if_neg hi]; exact ⟨best, rfl⟩

theorem strategy2_ok (data : List Nat) : ∃ o, strategy2 data = Except.ok o := by
  obtain ⟨r, hr⟩ := fallbackLoop_ok data (data.length + 1) 0 [] (by omega)
  unfold strategy2
  rw [hr]
  exact ⟨_, rfl⟩

/-- C2: `extract_text_from_attributed_body` is total: on every byte blob,
including empty, truncated and malformed ones, every byte index and slice
access taken is in bounds and every loop terminates within its iteration
budget (no `Except.error`), and the function returns an `Option` — `none`
(rather than a failure) when neither tier qualifies. -/
theorem extract_text_total (data : List Nat) :
    ∃ o, extract_text_from_attributed_body data = Except.ok o := by
  unfold extract_text_from_attributed_body
  cases hfs : find_subsequence data nsstring_marker with
  | none => exact strategy2_ok data
  | some pos =>
    obtain ⟨r, hr⟩ :=
      strat1Scan_ok data (min (pos + nsstring_marker.length + 20) data.length)
        (Nat.min_le_right _ _) 20 (pos + nsstring_marker.length) (by omega)
    simp only [hr]
    match r with
    | some t => exact ⟨_, rfl⟩
    | none => exact strategy2_ok data

/-! ### The structured tier on well-formed blobs (claim C1) -/

theorem strat1Scan_hit (data : List Nat) (stop fuel i lb : Nat) (cps : List Nat)
    (hlt : i < stop)
    (hbi : data.get? i = some 0x2B) (hi2 : i + 2 < data.length)
    (hlb : data.get? (i + 1) = some lb) (hlb128 : lb < 0x80)
    (htl : i + 2 + lb ≤ data.length)
    (hdec : utf8Decode ((data.drop (i + 2)).take lb) = some cps)
    (hne : (trimCodepoints cps).isEmpty = false) :
    strat1Scan data stop (fuel + 1) i = Except.ok (some (trimCodepoints cps)) := by
  rw [strat1Scan, if_pos hlt]
  simp only [hbi]
  rw [if_pos (show _ ∧ _ from ⟨by trivial, hi2⟩)]
  simp only [hlb]
  have hh : lengthHeader data i lb = Except.ok (some (i + 2, lb)) := by
    unfold lengthHeader; rw [if_pos hlb128]
  simp only [hh]
  rw [if_pos htl]
  simp only [slice?_pos (show i + 2 ≤ i + 2 + lb by omega) htl]
  rw [show i + 2 + lb - (i + 2) = lb by omega]
  simp only [hdec]
  rw [if_neg (by simp [hne])]

/-- C1 (amended): for a structured blob `marker ++ 0x2B :: lengthByte :: payload`
with `1 ≤ lengthByte ≤ 127`, a payload of exactly that many bytes that is
valid UTF-8, and a payload that is not all whitespace, the structured tier
returns `Some` of the *whitespace-trimmed* payload. -/
theorem structured_blob_roundtrip (n : Nat) (p cs : List Nat)
    (h1 : 1 ≤ n) (h127 : n ≤ 127) (hplen : p.length = n)
    (hdec : utf8Decode p = some cs) (hne : trimCodepoints cs ≠ []) :
    extract_text_from_attributed_body (nsstring_marker ++ 0x2B :: n :: p) =
      Except.ok (some (trimCodepoints cs)) := by
  have hml : nsstring_marker.length = 8 := rfl
  have hdlen : (nsstring_marker ++ 0x2B :: n :: p).length = 10 + n := by
    simp [nsstring_marker, hplen]; omega
  have hfs : find_subsequence (nsstring_marker ++ 0x2B :: n :: p) nsstring_marker = some 0 := by
    rw [find_subsequence.eq_def, if_neg (by rw [hml, hdlen]; omega),
      if_pos (List.isPrefixOf_iff_prefix.mpr (List.prefix_append _ _))]
  have hdrop : (nsstring_marker ++ 0x2B :: n :: p).drop (0 + nsstring_marker.length + 2) = p := rfl
  have htake : ((nsstring_marker ++ 0x2B :: n :: p).drop (0 + nsstring_marker.length + 2)).take n = p := by
    rw [hdrop, ← hplen, List.take_length]
  have hhit :
      strat1Scan (nsstring_marker ++ 0x2B :: n :: p)
        (min (0 + nsstring_marker.length + 20) (nsstring_marker ++ 0x2B :: n :: p).length)
        20 (0 + nsstring_marker.length) =
        Except.ok (some (trimCodepoints cs)) :=
    strat1Scan_hit _ _ 19 _ n cs
      (by rw [hml, hdlen]; exact Nat.lt_min.mpr ⟨by omega, by omega⟩)
      rfl
      (by rw [hml, hdlen]; omega)
      rfl
      (by omega)
      (by rw [hml, hdlen]; try omega)
      (by rw [htake]; exact hdec)
      (by simpa [List.isEmpty_iff] using hne)
  unfold extract_text_from_attributed_body
  simp only [hfs, hhit]

/-- C1 witness: blob `"NSString" ++ [0x2B, 2] ++ "hi"` decodes to `"hi"`. -/
theorem structured_blob_roundtrip_witness :
    extract_text_from_attributed_body (nsstring_marker ++ 0x2B :: 2 :: [104, 105]) =
      Except.ok (some (trimCodepoints [104, 105])) :=
  structured_blob_roundtrip 2 [104, 105] [104, 105] (by decide) (by decide) rfl rfl
    (by decide)

/-- C1 counterexample to the claim as stated: for the payload `" ab "`
(4 bytes, valid UTF-8, length byte `4 < 0x80`) the decoder returns the
*trimmed* text `"ab"`, not the payload itself. -/
theorem structured_blob_exact_roundtrip_ctrex :
    utf8Decode [32, 97, 98, 32] = some [32, 97, 98, 32] ∧
    extract_text_from_attributed_body (nsstring_marker ++ 0x2B :: 4 :: [32, 97, 98, 32]) =
      Except.ok (some [97, 98]) ∧
    extract_text_from_attributed_body (nsstring_marker ++ 0x2B :: 4 :: [32, 97, 98, 32]) ≠
      Except.ok (some [32, 97, 98, 32]) := by
  have h : extract_text_from_attributed_body (nsstring_marker ++ 0x2B :: 4 :: [32, 97, 98, 32]) =
      Except.ok (some [97, 98]) := rfl
  exact ⟨rfl, h, by rw [h]; simp⟩

/-! ### TimestampCodec claims (C4) -/

/-- C4 counterexample: at `n = 1.5·10⁹` nanoseconds, `convert_apple_time`
gives `978307201000` ms (whole-second truncation), while the claimed
formula `n / 10⁶ + 978307200·1000` — which is exactly the chat listing's
`last_message_time_ms` — gives `978307201500` ms. -/
theorem convert_apple_time_claim_ctrex :
    convert_apple_time 1500000000 = 978307201000 ∧
    last_message_time_ms 1500000000 = 978307201500 ∧
    convert_apple_time 1500000000 ≠ Int.tdiv 1500000000 1000000 + 978307200 * 1000 ∧
    convert_apple_time 1500000000 ≠ last_message_time_ms 1500000000 := by
  exact ⟨by decide, by decide, by decide, by decide⟩

/-- C4 (amended): the codec uses the epoch constant 978307200, but
`convert_apple_time` truncates to whole *seconds* before scaling:
`convert_apple_time n = (n ÷ 10⁹ + 978307200) · 1000 = 1000 ·
convert_apple_time_seconds n`, and `convert_apple_time_seconds n =
n ÷ 10⁹ + 978307200` exactly as claimed (`÷` is Rust's truncated
division). -/
theorem convert_apple_time_spec (n : Int) :
    convert_apple_time n = (Int.tdiv n 1000000000 + 978307200) * 1000 ∧
    convert_apple_time_seconds n = Int.tdiv n 1000000000 + 978307200 ∧
    convert_apple_time n = 1000 * convert_apple_time_seconds n := by
  unfold convert_apple_time convert_apple_time_seconds APPLE_EPOCH
  exact ⟨by ring, by ring, by ring⟩

/-! ### AssociationResolver claims (C7) -/

/-- C7: `normalize_reaction_guid` is the identity on a bare GUID (no `'/'`,
no `"bp:"` prefix), and strips both wrapper shapes `"p:0/" ++ g` and
`"bp:" ++ g` down to `g`. -/
theorem normalize_reaction_guid_spec (g : List Char)
    (hslash : '/' ∉ g) (hbp : ¬ ['b', 'p', ':'].isPrefixOf g = true) :
    normalize_reaction_guid g = g ∧
    normalize_reaction_guid (['p', ':', '0', '/'] ++ g) = g ∧
    normalize_reaction_guid (['b', 'p', ':'] ++ g) = g := by
  refine ⟨?_, ?_, ?_⟩
  · unfold normalize_reaction_guid
    rw [afterLastSlash_of_no_slash hslash, if_neg hbp]
  · unfold normalize_reaction_guid
    rw [show (['p', ':', '0', '/'] ++ g : List Char) = ['p', ':', '0'] ++ '/' :: g from rfl,
      afterLastSlash_append _ _ hslash]
  · unfold normalize_reaction_guid
    have hn : '/' ∉ ('b' :: 'p' :: ':' :: g : List Char) := by
      simp only [List.mem_cons, not_or]
      exact ⟨by decide, by decide, by decide, hslash⟩
    rw [show (['b', 'p', ':'] ++ g : List Char) = 'b' :: 'p' :: ':' :: g from rfl]
    simp only [afterLastSlash_of_no_slash hn]
    rw [if_pos (List.isPrefixOf_iff_prefix.mpr
      (show (['b', 'p', ':'] : List Char) <+: 'b' :: 'p' :: ':' :: g from ⟨g, rfl⟩))]
    rfl

/-- C7 witness at the bare GUID `"ABC"`. -/
theorem normalize_reaction_guid_witness :
    normalize_reaction_guid ['A', 'B', 'C'] = ['A', 'B', 'C'] ∧
    normalize_reaction_guid (['p', ':', '0', '/'] ++ ['A', 'B', 'C']) = ['A', 'B', 'C'] ∧
    normalize_reaction_guid (['b', 'p', ':'] ++ ['A', 'B', 'C']) = ['A', 'B', 'C'] :=
  normalize_reaction_guid_spec ['A', 'B', 'C'] (by decide) (by decide)

/-! ## ChangeWatcher (`watcher.rs`, `start_file_watcher`) -/

/-- One iteration of the poll-fallback loop's comparison
(`watcher.rs:105-114`): given the previously observed value `last` and the
WAL sidecar's current modification time `current` (`none` when the
metadata read failed), return whether a tick is sent and the updated
observed value. -/
def poll_step (last current : Option Int) : Bool × Option Int :=
  if current ≠ last then (if last.isSome then true else false, current)
  else (false, last)

/-- The first poll's comparison.  The baseline `last_modified` is read
from the *main database file* before the loop (`watcher.rs:87-89`), while
every in-loop poll reads the WAL sidecar (`watcher.rs:100-103`):
`first_poll_emits db wal` is whether the first loop iteration sends a
tick. -/
def first_poll_emits (dbMtime walMtime : Option Int) : Bool :=
  (poll_step dbMtime walMtime).1

/-- C5: the first poll *can* emit a tick.  With the main file's mtime
readable (here `some 5`) and a WAL mtime differing from it (here `some 7`
— the normal situation at startup, since the two files are distinct), the
first comparison already sends a tick; only a failed baseline read
(`none`) suppresses it. -/
theorem first_poll_emits_on_first_comparison :
    first_poll_emits (some 5) (some 7) = true ∧
    first_poll_emits none (some 7) = false ∧
    first_poll_emits (some 5) (some 5) = false := by
  refine ⟨by decide, by decide, by decide⟩

/-- The event source's filter (`watcher.rs:63-70`): a debounced batch is
forwarded iff some event path *contains the substring* `"chat.db"`. -/
def db_changed (paths : List (List Char)) : Bool :=
  paths.any (fun p => containsSeq "chat.db".toList p)

/-- C6 counterexample: a batch whose only changed path is the WAL sidecar
`"chat.db-wal"` — not the archive's main file name — still produces a
tick, because the filter is substring containment. -/
theorem db_changed_sidecar_ctrex :
    db_changed ["chat.db-wal".toList] = true ∧
    "chat.db-wal".toList ≠ "chat.db".toList ∧
    ¬ "chat.db".toList <:+ "chat.db-wal".toList := by
  refine ⟨by decide, by decide, by decide⟩

/-- C6 (amended): a tick is forwarded iff at least one changed path
contains `"chat.db"` as a substring — which matches the main file and
also its `-wal`/`-shm` sidecars. -/
theorem db_changed_iff (paths : List (List Char)) :
    db_changed paths = true ↔ ∃ p ∈ paths, "chat.db".toList <:+: p := by
  unfold db_changed
  simp only [List.any_eq_true, containsSeq_iff]

/-! ## ConversationQueryEngine (`messages.rs`, `fetch_chats`,
`fetch_chats_by_ids`, `fetch_search_chats`, `fetch_messages`)

SQL query results are inputs here: a table scan is a `List` of row
structures in the query's ORDER BY order, and the keyed maps that the Rust
code assembles from batched queries (`handles_map`,
`fetch_last_messages_map`'s output, the contact cache) enter as functions.
`limit`/`offset` are `Nat` (the SQLite semantics of negative LIMIT/OFFSET
are outside the embedded fragment). -/

/-- `str::trim` on strings of the query layer. -/
def trimChars (l : List Char) : List Char :=
  ((l.dropWhile (fun c => rustWhitespace c.toNat)).reverse.dropWhile
    (fun c => rustWhitespace c.toNat)).reverse

structure Chat where
  id : Int
  display_name : List Char
  last_message_text : Option (List Char)
  last_message_time : Option Int
  last_message_is_from_me : Option Bool
  is_group : Bool
  handles : List (List Char)
  chat_identifier : Option (List Char)
deriving DecidableEq

structure ChatsResponse where
  chats : List Chat
  total : Nat
  has_more : Bool
deriving DecidableEq

structure ChatsByIdsResponse where
  chats : List Chat
deriving DecidableEq

structure SearchChatsResponse where
  chats : List Chat
  query : List Char
deriving DecidableEq

/-- A row of the `chat` table as selected by the chat queries:
`(ROWID, display_name, chat_identifier)`. -/
structure DbChatRow where
  rowid : Int
  display_name : Option (List Char)
  chat_identifier : Option (List Char)
deriving DecidableEq

/-- The environment of a chat query: the batched per-chat query results and
the contact cache.  `handlesMap` is `handles_map.get(&chat_id).cloned()
.unwrap_or_default()`; `lastMap` is `last_messages_map.get(&chat_id)
.cloned().unwrap_or((None, None, None))` — the output of the last-message
window query plus `format_last_message_text`; `contactName` is
`get_contact_name` against the context db. -/
structure ChatQueryEnv where
  handlesMap : Int → List (List Char)
  lastMap : Int → Option (List Char) × Option Int × Option Bool
  contactName : List Char → Option (List Char)

/-- The handle-joined fallback name of `resolve_display_name`. -/
def joined_handles_name (handles : List (List Char)) (env : ChatQueryEnv) : List Char :=
  if handles.isEmpty then "Unknown".toList
  else List.intercalate ", ".toList (handles.map (fun h => (env.contactName h).getD h))

/-- `resolve_display_name`. -/
def resolve_display_name (display_name : Option (List Char)) (handles : List (List Char))
    (env : ChatQueryEnv) : List Char :=
  match display_name with
  | some name => if ¬name.isEmpty then name else joined_handles_name handles env
  | none => joined_handles_name handles env

/-- The `Chat` value built for one chat row (the "Step 4" blocks of
`fetch_chats`, `fetch_chats_by_ids` and `fetch_search_chats`, which are
textually identical in the source; the queue-missing-handles side effect
has no influence on the returned value and is not modelled). -/
def buildChat (env : ChatQueryEnv) (row : DbChatRow) : Chat :=
  let handles := env.handlesMap row.rowid
  let lm := env.lastMap row.rowid
  { id := row.rowid
    display_name := resolve_display_name row.display_name handles env
    last_message_text := lm.1
    last_message_time := lm.2.1
    last_message_is_from_me := lm.2.2
    is_group := handles.length > 1
    handles := handles
    chat_identifier := row.chat_identifier }

/-- `fetch_chats`: `total = COUNT(*) FROM chat`; LIMIT/OFFSET pagination of
the chat table (`chatTable` in the query's most-recent-message-first
order); early return on an empty page; batched `Chat` assembly;
`has_more = offset + returned < total`. -/
def fetch_chats (env : ChatQueryEnv) (chatTable : List DbChatRow)
    (limit offset : Nat) : ChatsResponse :=
  let total := chatTable.length
  let chat_rows := (chatTable.drop offset).take limit
  if chat_rows.isEmpty then { chats := [], total := total, has_more := false }
  else
    let chats := chat_rows.map (buildChat env)
    { chats := chats, total := total, has_more := offset + chats.length < total }

/-- `fetch_chats_by_ids` (with the `get_chats_by_ids` handler's identical
empty-input short-circuit): the boolean records whether any store query was
issued.  The chat-rows query is `WHERE ROWID IN (ids)`, i.e. the table
filtered to the requested ids. -/
def fetch_chats_by_ids (env : ChatQueryEnv) (chatTable : List DbChatRow)
    (chat_ids : List Int) : ChatsByIdsResponse × Bool :=
  if chat_ids.isEmpty then ({ chats := [] }, false)
  else
    let chat_rows := chatTable.filter (fun r => r.rowid ∈ chat_ids)
    if chat_rows.isEmpty then ({ chats := [] }, true)
    else ({ chats := chat_rows.map (buildChat env) }, true)

/-- Rust's `Option<i64>` ordering (`None < Some _`) as a Boolean `≤`. -/
def optIntLe (x y : Option Int) : Bool :=
  match x, y with
  | none, _ => true
  | some _, none => false
  | some a, some b => a ≤ b

/-- `fetch_search_chats`: `matchedRows` is the result set of the search
query (name/identifier/handle LIKE matches plus contact-resolved handles);
build, sort by last-message time descending, truncate to `limit`. -/
def fetch_search_chats (env : ChatQueryEnv) (matchedRows : List DbChatRow)
    (query : List Char) (limit : Nat) : SearchChatsResponse :=
  if matchedRows.isEmpty then { chats := [], query := query }
  else
    let chats := (matchedRows.map (buildChat env)).mergeSort
      (fun a b => optIntLe b.last_message_time a.last_message_time)
    { chats := if chats.length > limit then chats.take limit else chats
      query := query }

structure Reaction where
  emoji : List Char
  is_from_me : Bool
deriving DecidableEq

structure Attachment where
  id : Int
  filename : Option (List Char)
  mime_type : Option (List Char)
  transfer_name : Option (List Char)
  total_bytes : Int
deriving DecidableEq

structure Message where
  id : Int
  guid : Option (List Char)
  text : Option (List Char)
  time : Int
  is_from_me : Bool
  handle : Option (List Char)
  contact_name : Option (List Char)
  reactions : List Reaction
  attachments : List Attachment
deriving DecidableEq

structure MessagesResponse where
  messages : List Message
  total : Nat
  has_more : Bool
deriving DecidableEq

/-- A row of the per-chat message query of `fetch_messages`. -/
structure MsgRow where
  rowid : Int
  guid : List Char
  text : Option (List Char)
  date : Int
  is_from_me : Bool
  handle : Option (List Char)
  cache_has_attachments : Int
  associated_message_type : Option Int
  attributedBody : Option (List Nat)
deriving DecidableEq

/-- A row of the reaction lookup query
(`associated_message_guid, associated_message_type, is_from_me`). -/
structure ReactionRow where
  associated_message_guid : List Char
  associated_message_type : Int
  is_from_me : Bool
deriving DecidableEq

/-- A row of the attachment join query. -/
structure AttachmentRow where
  message_id : Int
  rowid : Int
  filename : Option (List Char)
  mime_type : Option (List Char)
  transfer_name : Option (List Char)
  total_bytes : Int
deriving DecidableEq

/-- The non-reaction filter of the message listing:
`associated_message_type = 0 OR associated_message_type IS NULL`. -/
def isNormalMsg (r : MsgRow) : Bool :=
  r.associated_message_type = some 0 ∨ r.associated_message_type = none

/-- The caller-side view of the checked decoder: the `error` case (proved
unreachable by the totality theorem) collapses to `none`, and code points
become chars. -/
def extracted_body_text (b : List Nat) : Option (List Char) :=
  match extract_text_from_attributed_body b with
  | .ok o => o.map (fun cps => cps.map Char.ofNat)
  | .error _ => none

/-- The per-row text resolution of `fetch_messages` (attachment indicator,
decoded body, `"💬 Message"` placeholder). -/
def resolveMsgText (r : MsgRow) : Option (List Char) :=
  if r.text = none ∨ (r.text.map (fun t => (trimChars t).isEmpty)).getD true = true then
    if r.cache_has_attachments = 1 then some "📎 Attachment".toList
    else
      match r.attributedBody with
      | some body =>
        match extracted_body_text body with
        | some extracted => some extracted
        | none => some "💬 Message".toList
      | none => r.text
  else r.text

/-- The emoji assigned to a reaction type code; `none` is the
`_ => continue` arm. -/
def reaction_emoji (reaction_type : Int) : Option (List Char) :=
  if reaction_type = 2000 then some "❤️".toList
  else if reaction_type = 2001 then some "👍".toList
  else if reaction_type = 2002 then some "👎".toList
  else if reaction_type = 2003 then some "😂".toList
  else if reaction_type = 2004 then some "‼️".toList
  else if reaction_type = 2005 then some "❓".toList
  else none

/-- The reaction query's WHERE clause: `associated_message_type BETWEEN
2000 AND 2005` and the association guid LIKE-matches one of the page's
guids as `"%/G"` or `"bp:G"` (ASCII case folding of LIKE not modelled; the
embedded fragment only ever compares exact guids). -/
def reaction_row_matches (guids : List (List Char)) (r : ReactionRow) : Bool :=
  (2000 ≤ r.associated_message_type ∧ r.associated_message_type ≤ 2005) ∧
  guids.any (fun g =>
    ('/' :: g).isSuffixOf r.associated_message_guid ∨
      r.associated_message_guid = 'b' :: 'p' :: ':' :: g)

/-- The reactions attached to the message with guid `g`: qualifying rows
whose extracted parent guid is `g`, with the emoji of their type code.
(The Rust code builds a `HashMap` keyed by parent guid and moves each
entry out once; with guids unique within the store — the data-model
invariant — that is the same multiset as this filter.) -/
def reactions_for (rows : List ReactionRow) (guids : List (List Char)) (g : List Char) :
    List Reaction :=
  (rows.filter (reaction_row_matches guids)).filterMap (fun r =>
    if normalize_reaction_guid r.associated_message_guid = g then
      (reaction_emoji r.associated_message_type).map
        (fun e => { emoji := e, is_from_me := r.is_from_me })
    else none)

/-- The attachments joined to message `mid`. -/
def attachments_for (attachTable : List AttachmentRow) (mid : Int) : List Attachment :=
  (attachTable.filter (fun a => a.message_id = mid)).map (fun a =>
    { id := a.rowid, filename := a.filename, mime_type := a.mime_type,
      transfer_name := a.transfer_name, total_bytes := a.total_bytes })

/-- One `Message` of the listing, reactions and attachments attached. -/
def buildMessage (env : ChatQueryEnv) (reactionTable : List ReactionRow)
    (attachTable : List AttachmentRow) (guids : List (List Char)) (r : MsgRow) : Message :=
  { id := r.rowid
    guid := some r.guid
    text := resolveMsgText r
    time := convert_apple_time r.date
    is_from_me := r.is_from_me
    handle := r.handle
    contact_name := r.handle.bind env.contactName
    reactions := reactions_for reactionTable guids r.guid
    attachments := attachments_for attachTable r.rowid }

/-- `fetch_messages`: `total` counts the chat's non-reaction rows;
LIMIT/OFFSET pagination of the newest-first non-reaction rows (`msgTable`
is the chat's joined message rows in `ORDER BY m.date DESC` order); the
page is enriched with reactions and attachments, then reversed to
oldest-first; `has_more = offset + returned < total`. -/
def fetch_messages (env : ChatQueryEnv) (msgTable : List MsgRow)
    (reactionTable : List ReactionRow) (attachTable : List AttachmentRow)
    (limit offset : Nat) : MessagesResponse :=
  let total := (msgTable.filter isNormalMsg).length
  let page := ((msgTable.filter isNormalMsg).drop offset).take limit
  let guids := page.map (fun r => r.guid)
  let result := (page.map (buildMessage env reactionTable attachTable guids)).reverse
  { messages := result, total := total, has_more := offset + result.length < total }

/-! ### Pagination claims (C3) -/

/-- A trivial query environment for concrete evaluations. -/
def trivChatEnv : ChatQueryEnv :=
  { handlesMap := fun _ => [], lastMap := fun _ => (none, none, none),
    contactName := fun _ => none }

/-- C3 counterexample: with an empty store and `offset = 5`, both listings
report `has_more = false` although `offset + returned ≠ total` — the
claimed "if and only if the equality holds" fails whenever the offset
overshoots the total. -/
theorem has_more_iff_eq_ctrex :
    (fetch_chats trivChatEnv [] 20 5).has_more = false ∧
    5 + (fetch_chats trivChatEnv [] 20 5).chats.length ≠ (fetch_chats trivChatEnv [] 20 5).total ∧
    (fetch_messages trivChatEnv [] [] [] 20 5).has_more = false ∧
    5 + (fetch_messages trivChatEnv [] [] [] 20 5).messages.length ≠
      (fetch_messages trivChatEnv [] [] [] 20 5).total := by
  refine ⟨rfl, by decide, rfl, by decide⟩

/-- C3 (amended): `has_more` is `false` iff `offset + returned ≥ total`
(for `fetch_chats` also on every empty page, where the early return forces
`false`); the claimed equality characterisation holds exactly on the
non-degenerate side: whenever `offset ≤ total` (and, for `fetch_chats`,
the page is non-empty), `has_more = false ↔ offset + returned = total`. -/
theorem has_more_spec (env : ChatQueryEnv) (chatTable : List DbChatRow)
    (msgTable : List MsgRow) (reactionTable : List ReactionRow)
    (attachTable : List AttachmentRow) (limit offset : Nat) :
    ((fetch_chats env chatTable limit offset).has_more = false ↔
      (fetch_chats env chatTable limit offset).total ≤
          offset + (fetch_chats env chatTable limit offset).chats.length ∨
        (fetch_chats env chatTable limit offset).chats.length = 0) ∧
    ((fetch_messages env msgTable reactionTable attachTable limit offset).has_more = false ↔
      (fetch_messages env msgTable reactionTable attachTable limit offset).total ≤
        offset + (fetch_messages env msgTable reactionTable attachTable limit offset).messages.length) ∧
    (offset ≤ chatTable.length →
      0 < (fetch_chats env chatTable limit offset).chats.length →
      ((fetch_chats env chatTable limit offset).has_more = false ↔
        offset + (fetch_chats env chatTable limit offset).chats.length =
          (fetch_chats env chatTable limit offset).total)) ∧
    (offset ≤ (msgTable.filter isNormalMsg).length →
      ((fetch_messages env msgTable reactionTable attachTable limit offset).has_more = false ↔
        offset + (fetch_messages env msgTable reactionTable attachTable limit offset).messages.length =
          (fetch_messages env msgTable reactionTable attachTable limit offset).total)) := by
  have hchats_len :
      ((chatTable.drop offset).take limit).length = min limit (chatTable.length - offset) := by
    simp [List.length_take, List.length_drop]
  have hmsgs_len :
      (((msgTable.filter isNormalMsg).drop offset).take limit).length =
        min limit ((msgTable.filter isNormalMsg).length - offset) := by
    simp [List.length_take, List.length_drop]
  unfold fetch_chats fetch_messages
  by_cases hemp : ((chatTable.drop offset).take limit).isEmpty = true
  · rw [if_pos hemp]
    have h0 : ((chatTable.drop offset).take limit).length = 0 := by
      rw [List.isEmpty_iff] at hemp; rw [hemp]; rfl
    refine ⟨by simp, ?_, ?_, ?_⟩
    · simp only [List.length_reverse, List.length_map, hmsgs_len,
        decide_eq_false_iff_not, Nat.not_lt]
    · intro hoff hpos
      simp at hpos
    · intro hoff
      simp only [List.length_reverse, List.length_map, hmsgs_len,
        decide_eq_false_iff_not, Nat.not_lt]
      omega
  · rw [if_neg hemp]
    have hne : ((chatTable.drop offset).take limit).length ≠ 0 := by
      intro h0
      exact hemp (List.isEmpty_iff.mpr (List.length_eq_zero.mp h0))
    refine ⟨?_, ?_, ?_, ?_⟩
    · simp only [List.length_map, decide_eq_false_iff_not, Nat.not_lt]
      constructor
      · exact fun h => Or.inl h
      · rintro (h | h)
        · exact h
        · exact absurd h hne
    · simp only [List.length_reverse, List.length_map, hmsgs_len,
        decide_eq_false_iff_not, Nat.not_lt]
    · intro hoff _
      simp only [List.length_map, hchats_len, decide_eq_false_iff_not, Nat.not_lt]
      omega
    · intro hoff
      simp only [List.length_reverse, List.length_map, hmsgs_len,
        decide_eq_false_iff_not, Nat.not_lt]
      omega

/-- C3 witness: a two-chat store, `limit = 1`, `offset = 1`: the page is the
second chat, `has_more = false` and `offset + returned = total = 2`. -/
theorem has_more_spec_witness :
    1 ≤ ([⟨1, none, none⟩, ⟨2, none, none⟩] : List DbChatRow).length ∧
    0 < (fetch_chats trivChatEnv [⟨1, none, none⟩, ⟨2, none, none⟩] 1 1).chats.length ∧
    ((fetch_chats trivChatEnv [⟨1, none, none⟩, ⟨2, none, none⟩] 1 1).has_more = false ↔
      1 + (fetch_chats trivChatEnv [⟨1, none, none⟩, ⟨2, none, none⟩] 1 1).chats.length =
        (fetch_chats trivChatEnv [⟨1, none, none⟩, ⟨2, none, none⟩] 1 1).total) :=
  ⟨by decide, by decide,
    (has_more_spec trivChatEnv [⟨1, none, none⟩, ⟨2, none, none⟩] [] [] [] 1 1).2.2.1
      (by decide) (by decide)⟩

/-! ### By-ids lookup (C8) and the group invariant (C9) -/

/-- C8: `fetch_chats_by_ids` returns chats for exactly the requested ids —
an id appears among the returned chats iff it was requested and is present
in the store — and the empty input short-circuits to an empty result with
no store query issued. -/
theorem fetch_chats_by_ids_spec (env : ChatQueryEnv) (chatTable : List DbChatRow)
    (ids : List Int) :
    (ids = [] → fetch_chats_by_ids env chatTable ids = ({ chats := [] }, false)) ∧
    (∀ x : Int,
      (∃ c ∈ (fetch_chats_by_ids env chatTable ids).1.chats, c.id = x) ↔
        (x ∈ ids ∧ ∃ r ∈ chatTable, r.rowid = x)) := by
  constructor
  · intro h
    subst h
    rfl
  · intro x
    unfold fetch_chats_by_ids
    by_cases hids : ids.isEmpty = true
    · rw [if_pos hids]
      rw [List.isEmpty_iff] at hids
      subst hids
      simp
    · rw [if_neg hids]
      by_cases hrows : (chatTable.filter (fun r => r.rowid ∈ ids)).isEmpty = true
      · rw [if_pos hrows]
        rw [List.isEmpty_iff] at hrows
        simp only [List.mem_nil_iff, false_and, exists_false, false_iff, not_and,
          not_exists]
        intro hx
        intro r hr hrx
        have : r ∈ chatTable.filter (fun r => r.rowid ∈ ids) :=
          List.mem_filter.mpr ⟨hr, by simp [hrx, hx]⟩
        rw [hrows] at this
        exact absurd this (List.not_mem_nil r)
      · rw [if_neg hrows]
        simp only [List.mem_map]
        constructor
        · rintro ⟨c, ⟨r, hrmem, rfl⟩, hcx⟩
          have hid : (buildChat env r).id = r.rowid := rfl
          rw [hid] at hcx
          obtain ⟨hrt, hin⟩ := List.mem_filter.mp hrmem
          refine ⟨by subst hcx; simpa using hin, r, hrt, hcx⟩
        · rintro ⟨hx, r, hrt, hrx⟩
          exact ⟨buildChat env r,
            ⟨r, List.mem_filter.mpr ⟨hrt, by simp [hrx, hx]⟩, rfl⟩, hrx⟩

/-- C8 witness: empty input short-circuits; and for the one-row store
`[id 1]` with request `[1, 2]`, id `1` is returned and id `2` is not. -/
theorem fetch_chats_by_ids_witness :
    fetch_chats_by_ids trivChatEnv [⟨1, none, none⟩] [] = ({ chats := [] }, false) ∧
    ((∃ c ∈ (fetch_chats_by_ids trivChatEnv [⟨1, none, none⟩] [1, 2]).1.chats, c.id = 1) ↔
      ((1 : Int) ∈ [(1 : Int), 2] ∧ ∃ r ∈ [(⟨1, none, none⟩ : DbChatRow)], r.rowid = 1)) :=
  ⟨(fetch_chats_by_ids_spec trivChatEnv [⟨1, none, none⟩] []).1 rfl,
    (fetch_chats_by_ids_spec trivChatEnv [⟨1, none, none⟩] [1, 2]).2 1⟩

/-- C9: every `Chat` built by any of the three chat-reconstruction
operations satisfies `is_group = (handles.length > 1)`. -/
theorem chats_is_group_invariant (env : ChatQueryEnv) (chatTable : List DbChatRow)
    (limit offset : Nat) (ids : List Int) (matchedRows : List DbChatRow)
    (query : List Char) (slimit : Nat) :
    (∀ c ∈ (fetch_chats env chatTable limit offset).chats,
      c.is_group = decide (c.handles.length > 1)) ∧
    (∀ c ∈ (fetch_chats_by_ids env chatTable ids).1.chats,
      c.is_group = decide (c.handles.length > 1)) ∧
    (∀ c ∈ (fetch_search_chats env matchedRows query slimit).chats,
      c.is_group = decide (c.handles.length > 1)) := by
  have hbuild : ∀ r, (buildChat env r).is_group = decide ((buildChat env r).handles.length > 1) :=
    fun r => rfl
  refine ⟨?_, ?_, ?_⟩
  · intro c hc
    unfold fetch_chats at hc
    by_cases hemp : ((chatTable.drop offset).take limit).isEmpty = true
    · rw [if_pos hemp] at hc
      exact absurd hc (List.not_mem_nil c)
    · rw [if_neg hemp] at hc
      obtain ⟨r, _, rfl⟩ := List.mem_map.mp hc
      exact hbuild r
  · intro c hc
    unfold fetch_chats_by_ids at hc
    by_cases hids : ids.isEmpty = true
    · rw [if_pos hids] at hc
      exact absurd hc (List.not_mem_nil c)
    · rw [if_neg hids] at hc
      by_cases hrows : (chatTable.filter (fun r => r.rowid ∈ ids)).isEmpty = true
      · rw [if_pos hrows] at hc
        exact absurd hc (List.not_mem_nil c)
      · rw [if_neg hrows] at hc
        obtain ⟨r, _, rfl⟩ := List.mem_map.mp hc
        exact hbuild r
  · intro c hc
    unfold fetch_search_chats at hc
    by_cases hemp : matchedRows.isEmpty = true
    · rw [if_pos hemp] at hc
      exact absurd hc (List.not_mem_nil c)
    · rw [if_neg hemp] at hc
      dsimp only at hc
      have hsorted : c ∈ (matchedRows.map (buildChat env)).mergeSort
          (fun a b => optIntLe b.last_message_time a.last_message_time) := by
        by_cases hlen : ((matchedRows.map (buildChat env)).mergeSort
            (fun a b => optIntLe b.last_message_time a.last_message_time)).length > slimit
        · rw [if_pos hlen] at hc
          exact List.take_subset _ _ hc
        · rw [if_neg hlen] at hc
          exact hc
      obtain ⟨r, _, rfl⟩ := List.mem_map.mp (List.mem_mergeSort.mp hsorted)
      exact hbuild r

/-! ### Reaction glyphs in the message listing (C10) -/

theorem reaction_emoji_mem {t : Int} {e : List Char} (h : reaction_emoji t = some e) :
    e = "❤️".toList ∨ e = "👍".toList ∨ e = "👎".toList ∨
      e = "😂".toList ∨ e = "‼️".toList ∨ e = "❓".toList := by
  unfold reaction_emoji at h
  split_ifs at h <;> simp_all

theorem filter_subpred {α : Type} (p q : α → Bool) (h : ∀ a, q a = true → p a = true)
    (l : List α) : (l.filter p).filter q = l.filter q := by
  induction l with
  | nil => rfl
  | cons a t ih =>
    by_cases hp : p a = true
    · by_cases hq : q a = true
      · simp [List.filter_cons, hp, hq, ih]
      · simp [List.filter_cons, hp, hq, ih]
    · have hq : ¬q a = true := fun hq => hp (h a hq)
      simp [List.filter_cons, hp, hq, ih]

/-- C10: every reaction attached to a message returned by `fetch_messages`
carries one of the six glyphs ❤️ 👍 👎 😂 ‼️ ❓ (type codes 2000–2005),
and association rows with any other type code never contribute: restricting
the reaction table to rows with type code in 2000–2005 leaves the result
unchanged. -/
theorem fetch_messages_reaction_glyphs (env : ChatQueryEnv) (msgTable : List MsgRow)
    (reactionTable : List ReactionRow) (attachTable : List AttachmentRow)
    (limit offset : Nat) :
    (∀ m ∈ (fetch_messages env msgTable reactionTable attachTable limit offset).messages,
      ∀ r ∈ m.reactions,
        r.emoji = "❤️".toList ∨ r.emoji = "👍".toList ∨ r.emoji = "👎".toList ∨
          r.emoji = "😂".toList ∨ r.emoji = "‼️".toList ∨ r.emoji = "❓".toList) ∧
    fetch_messages env msgTable
      (reactionTable.filter (fun r =>
        2000 ≤ r.associated_message_type ∧ r.associated_message_type ≤ 2005))
      attachTable limit offset =
      fetch_messages env msgTable reactionTable attachTable limit offset := by
  constructor
  · intro m hm r hr
    unfold fetch_messages at hm
    dsimp only at hm
    rw [List.mem_reverse] at hm
    obtain ⟨row, _, rfl⟩ := List.mem_map.mp hm
    have hr' : r ∈ reactions_for reactionTable
        ((((msgTable.filter isNormalMsg).drop offset).take limit).map (fun r => r.guid))
        row.guid := hr
    unfold reactions_for at hr'
    obtain ⟨a, _, ha⟩ := List.mem_filterMap.mp hr'
    by_cases hg : normalize_reaction_guid a.associated_message_guid = row.guid
    · rw [if_pos hg] at ha
      obtain ⟨e, he, hre⟩ := Option.map_eq_some'.mp ha
      have : r.emoji = e := by rw [← hre]
      rw [this]
      exact reaction_emoji_mem he
    · rw [if_neg hg] at ha
      exact absurd ha (by simp)
  · have hfor : ∀ guids g,
        reactions_for (reactionTable.filter (fun r =>
          2000 ≤ r.associated_message_type ∧ r.associated_message_type ≤ 2005)) guids g =
          reactions_for reactionTable guids g := by
      intro guids g
      unfold reactions_for
      rw [filter_subpred _ _ ?_ reactionTable]
      intro a ha
      simp only [reaction_row_matches, Bool.and_eq_true, decide_eq_true_eq] at ha ⊢
      exact ⟨ha.1.1, ha.1.2⟩
    have hbuild : ∀ guids row,
        buildMessage env (reactionTable.filter (fun r =>
          2000 ≤ r.associated_message_type ∧ r.associated_message_type ≤ 2005))
          attachTable guids row =
          buildMessage env reactionTable attachTable guids row := by
      intro guids row
      unfold buildMessage
      rw [hfor]
    have hbuild2 : ∀ guids,
        buildMessage env (reactionTable.filter (fun r =>
          2000 ≤ r.associated_message_type ∧ r.associated_message_type ≤ 2005))
          attachTable guids =
          buildMessage env reactionTable attachTable guids :=
      fun guids => funext (hbuild guids)
    unfold fetch_messages
    simp only [hbuild2]

/-- C9 witness: a one-chat store with no handles; the built chat has
`is_group = false = (0 > 1)`. -/
theorem chats_is_group_invariant_witness :
    (buildChat trivChatEnv ⟨1, none, none⟩).is_group =
      decide ((buildChat trivChatEnv ⟨1, none, none⟩).handles.length > 1) :=
  (chats_is_group_invariant trivChatEnv [⟨1, none, none⟩] 10 0 [] [] [] 0).1
    (buildChat trivChatEnv ⟨1, none, none⟩) (by decide)

/-- C10 witness: a love tapback (`2000`, wrapped guid `"p:0/G"`) on the
single message with guid `"G"` surfaces as the ❤️ reaction. -/
theorem fetch_messages_reaction_glyphs_witness :
    ({ emoji := "❤️".toList, is_from_me := true } : Reaction).emoji = "❤️".toList ∨
      ({ emoji := "❤️".toList, is_from_me := true } : Reaction).emoji = "👍".toList ∨
      ({ emoji := "❤️".toList, is_from_me := true } : Reaction).emoji = "👎".toList ∨
      ({ emoji := "❤️".toList, is_from_me := true } : Reaction).emoji = "😂".toList ∨
      ({ emoji := "❤️".toList, is_from_me := true } : Reaction).emoji = "‼️".toList ∨
      ({ emoji := "❤️".toList, is_from_me := true } : Reaction).emoji = "❓".toList :=
  (fetch_messages_reaction_glyphs trivChatEnv
      [⟨1, ['G'], some ['h', 'i'], 0, false, none, 0, some 0, none⟩]
      [⟨['p', ':', '0', '/', 'G'], 2000, true⟩] [] 10 0).1
    (buildMessage trivChatEnv [⟨['p', ':', '0', '/', 'G'], 2000, true⟩] [] [['G']]
      ⟨1, ['G'], some ['h', 'i'], 0, false, none, 0, some 0, none⟩)
    (by decide)
    { emoji := "❤️".toList, is_from_me := true }
    (by decide)
